import Mathlib

/-!
Shallow embedding of `db2odbc_fdw.c` (a PostgreSQL foreign data wrapper for
ODBC/DB2) and verification of the specification's claims about it.

The embedding models:
* the C standard library function `atol` used on the `cached` option token;
* the bounded reconnect/retry loop of `db2_BeginForeignScan`;
* the process-wide connection cache (`findConnection`, `addNewConnection`,
  `removeConnection`) including the `strncpy` into a 128-byte `malloc`'d
  (hence not zero-initialized) key buffer;
* `getConnection`'s authentication-failure path;
* the per-column cell handling in `db2_IterateForeignScan` (null-indicator
  check through an `int` cast, and the `strrchr` comma-to-point loop for
  numeric columns);
* `extract_error`'s diagnostic-record enumeration;
* the option validator `db2odbc_fdw_validator`.

Driver behaviour (the ODBC calls) is supplied as explicit inputs: a
sequence of per-attempt outcomes for the retry loop, a list of diagnostic
records for `extract_error`, and indicator/buffer values for `Iterate`.
-/

/-! ### The C library function `atol`, as used on the `cached` token

`atol` skips leading white space, accepts an optional sign, and consumes a
maximal run of decimal digits, returning 0 when no digit is present.
(Overflow is irrelevant here: the token is a short option string.) -/

def isSpaceC (c : Char) : Bool :=
  c = ' ' || c = '\t' || c = '\n' || c = Char.ofNat 11 || c = Char.ofNat 12 || c = '\r'

def digitsVal : List Char → Int → Int
  | [], acc => acc
  | c :: cs, acc => if c.isDigit then digitsVal cs (acc * 10 + ((c.toNat : Int) - 48)) else acc

def atolChars (s : List Char) : Int :=
  match s.dropWhile isSpaceC with
  | '-' :: rest => - digitsVal rest 0
  | '+' :: rest => digitsVal rest 0
  | s1 => digitsVal s1 0

def atol (s : String) : Int :=
  atolChars s.toList

/-! ### The retry loop of `db2_BeginForeignScan`

`#define ANYERROR -1` and `#define RETRYNUMB 2` from the source.

Each iteration of the `while (retry < RETRYNUMB)` loop calls
`getConnection` (which aborts the scan with UNABLE_TO_CONNECT when a fresh
connect is rejected by the driver), then allocates a statement handle and
executes the query.  The driver's behaviour at iteration `i` is given by
`ev i`:
* `connectFail` — `getConnection` has to connect afresh and the driver
  rejects `SQLConnect`, so `ereport(ERROR, ...)` aborts the scan;
* `exec .ok` — `SQLExecDirect` succeeds;
* `exec (.fail native)` — `SQLExecDirect` fails and `extract_error`
  reports `native` as the first native diagnostic code.

Outcomes record the number of `SQLExecDirect` attempts that were made. -/

def ANYERROR : Int := -1

def RETRYNUMB : Nat := 2

inductive ExecResult where
  | ok : ExecResult
  | fail : Int → ExecResult
deriving DecidableEq, Repr

inductive AttemptEvent where
  | connectFail : AttemptEvent
  | exec : ExecResult → AttemptEvent
deriving DecidableEq, Repr

inductive BeginOutcome where
  | describedOk : Nat → BeginOutcome
  | unableToConnect : Nat → BeginOutcome
  | execFailed : Nat → BeginOutcome
deriving DecidableEq, Repr

/-- The decision taken in the failure branch of the loop body, given the
`cached` token string: `lcached = atol(cached)`; a parsed value of `0` is
coerced to `ANYERROR`; `ANYERROR` retries unconditionally, otherwise the
parsed value must equal the native diagnostic code (`break` on mismatch). -/
def shouldRetry (cachedStr : String) (native : Int) : Bool :=
  let lcached := atol cachedStr
  let lcached2 := if lcached = 0 then ANYERROR else lcached
  if lcached2 = ANYERROR then true else lcached2 = native

/-- One execution of the loop body and the remaining iterations, with
`fuel = RETRYNUMB - retry` iterations left, `idx` the current iteration
index into the event sequence, and `execCount` the number of
`SQLExecDirect` calls made so far.  When the fuel is exhausted the loop
exits with `failure == 1`, i.e. EXEC_FAILED. -/
def beginLoopAux (cached : Option String) (ev : Nat → AttemptEvent) :
    Nat → Nat → Nat → BeginOutcome
  | 0, _, execCount => .execFailed execCount
  | fuel + 1, idx, execCount =>
    match ev idx with
    | .connectFail => .unableToConnect execCount
    | .exec .ok => .describedOk (execCount + 1)
    | .exec (.fail native) =>
      match cached with
      | none => .execFailed (execCount + 1)
      | some c =>
        if shouldRetry c native then beginLoopAux cached ev fuel (idx + 1) (execCount + 1)
        else .execFailed (execCount + 1)

/-- The whole retry loop of `db2_BeginForeignScan`, abstracted over the
driver's per-iteration behaviour. -/
def beginScan (cached : Option String) (ev : Nat → AttemptEvent) : BeginOutcome :=
  beginLoopAux cached ev RETRYNUMB 0 0

/-- Spec-side retry-eligibility predicate for a single execute failure:
the token is present and parses to `0` (this includes `"0"` and unparsable
text), parses to `-1`, or parses to exactly the reported native code. -/
def retryEligible (cached : Option String) (native : Int) : Bool :=
  match cached with
  | none => false
  | some c => atol c = 0 || atol c = -1 || atol c = native

/-! ### The connection cache

`db2ConnectionCacheEntry` from the source: a 128-byte `dsn_name` buffer, a
user id, and the two opaque handles, linked into a global list.  Opaque
ODBC handles are modelled as natural numbers.  `addNewConnection` copies
the dsn with `strncpy(e->dsn_name, dsn, DSN_MAX_LEN - 1)` into memory that
came from `malloc`, so byte 127 of the buffer is never written and holds
an arbitrary junk byte; the entry's key, as later read by `strcmp`, is the
C string that results from that buffer.  `removeConnection` walks the list
with a `prev` pointer that is initialised to `NULL` and never advanced, so
on every match it resets the global head to the successor of the matching
node. -/

def DSN_MAX_LEN : Nat := 128

def NUL : Char := Char.ofNat 0

structure db2ConnectionCacheEntry where
  dsn_name : List Char
  userId : Nat
  env : Nat
  dbc : Nat
deriving DecidableEq, Repr

/-- The `n` bytes written by `strncpy(dest, src, n)` for a NUL-free source
string `src`: at most `n` bytes of `src`, NUL-padded when `src` is
shorter than `n` (and not NUL-terminated when it is not). -/
def strncpyBytes (src : List Char) (n : Nat) : List Char :=
  src.take n ++ List.replicate (n - src.length) NUL

/-- The full 128-byte `dsn_name` buffer after `addNewConnection`'s
`strncpy`: 127 bytes written by `strncpy`, and the final byte left as the
junk `malloc` handed out. -/
def storedDsnBytes (dsn : List Char) (junk : Char) : List Char :=
  strncpyBytes dsn (DSN_MAX_LEN - 1) ++ [junk]

/-- Reading a buffer as a C string: the bytes before the first NUL.
(When the buffer holds no NUL at all, a real `strcmp` would keep reading
out of bounds; the model charitably stops at the end of the buffer.) -/
def cstringOf (bytes : List Char) : List Char :=
  bytes.takeWhile (fun c => c != NUL)

/-- `findConnection`: linear scan of the global list, first entry whose
stored key `strcmp`-equals `dsn` and whose `userId` matches. -/
def findConnection (cache : List db2ConnectionCacheEntry) (dsn : List Char) (userId : Nat) :
    Option db2ConnectionCacheEntry :=
  cache.find? (fun e => e.dsn_name == dsn && e.userId == userId)

/-- `addNewConnection`: `malloc` a node, `strncpy` the dsn into its key
buffer, fill the other fields, and prepend it to the global list. -/
def addNewConnection (cache : List db2ConnectionCacheEntry) (dsn : List Char)
    (userId env dbc : Nat) (junk : Char) : List db2ConnectionCacheEntry :=
  { dsn_name := cstringOf (storedDsnBytes dsn junk), userId := userId, env := env, dbc := dbc }
    :: cache

/-- The traversal of `removeConnection`: the first list is the remaining
chain being walked (`e = e->next` keeps following the original links, the
freed nodes included), the second is the current value of the global
`cache` head.  `prev` is `NULL` on every iteration (the source never
assigns it inside the loop), so each match executes `cache = e->next`. -/
def removeConnectionAux (dbc : Nat) :
    List db2ConnectionCacheEntry → List db2ConnectionCacheEntry → List db2ConnectionCacheEntry
  | [], cacheNow => cacheNow
  | e :: rest, cacheNow =>
    if e.dbc = dbc then removeConnectionAux dbc rest rest
    else removeConnectionAux dbc rest cacheNow

/-- `removeConnection(dbc)`: the value of the global cache list after the
removal loop has run. -/
def removeConnection (cache : List db2ConnectionCacheEntry) (dbc : Nat) :
    List db2ConnectionCacheEntry :=
  removeConnectionAux dbc cache cache

/-! ### `getConnection`

The option-merging glue is outside the core; `getConnection` is modelled
from the point where `dsn`, the optional `cached` token and the user id
are resolved.  The driver's reaction to a fresh `SQLConnect` is an input
(`DriverConnect`).  The function yields either the pair of handles or the
`ereport(ERROR, ...)` that aborts the scan, together with the resulting
global cache. -/

inductive FdwErrCode where
  | unableToEstablishConnection
  | fdwError
deriving DecidableEq, Repr

structure PgError where
  code : FdwErrCode
  msg : String
  hint : String
deriving DecidableEq, Repr

structure DriverConnect where
  env : Nat
  dbc : Nat
  connectOk : Bool
deriving DecidableEq, Repr

def getConnection (cache : List db2ConnectionCacheEntry) (dsn : List Char) (userId : Nat)
    (cached : Option String) (drv : DriverConnect) (junk : Char) :
    Except PgError (Nat × Nat) × List db2ConnectionCacheEntry :=
  match findConnection cache dsn userId with
  | some e => (.ok (e.env, e.dbc), cache)
  | none =>
    if drv.connectOk then
      (.ok (drv.env, drv.dbc),
        if cached.isSome then addNewConnection cache dsn userId drv.env drv.dbc junk else cache)
    else
      (.error { code := .unableToEstablishConnection
                msg := "cannot connect to odbc dsn " ++ String.mk dsn
                hint := "Check connection data or make sure that target database is online" },
        cache)

/-! ### Per-column cell handling in `db2_IterateForeignScan`

For column `i`, `SQLGetData` writes the cell text into the column buffer
and a length into `indicator` (an `SQLLEN`, a 64-bit signed integer on
the platforms this wrapper targets).  The source compares
`(int)indicator == SQL_NULL_DATA`, i.e. it truncates the indicator to a
32-bit `int` first.  A null cell sets `values[i] = NULL`; otherwise the
buffer is kept and, for numeric-family columns, the
`while ((p = strrchr(values[i], ','))) *p = '.';` loop repeatedly turns
the last remaining comma into a point. -/

def SQL_NULL_DATA : Int := -1

/-- The C cast `(int)x` of a 64-bit signed value: wrap into
`[-2^31, 2^31)`. -/
def toCInt (n : Int) : Int :=
  (n + 2147483648) % 4294967296 - 2147483648

/-- Replace the first comma of the list, if any, by a point. -/
def replaceFirstComma : List Char → List Char
  | [] => []
  | c :: cs => if c = ',' then '.' :: cs else c :: replaceFirstComma cs

/-- One execution of `*strrchr(s, ',') = '.'`: the last comma becomes a
point. -/
def strrchrReplace (s : List Char) : List Char :=
  (replaceFirstComma s.reverse).reverse

/-- The comma loop, with enough fuel to run to completion. -/
def fixDecimalAux : Nat → List Char → List Char
  | 0, s => s
  | fuel + 1, s => if s.contains ',' then fixDecimalAux fuel (strrchrReplace s) else s

/-- `while ((p = strrchr(s, ','))) *p = '.';` — the loop removes one comma
per iteration, so `s.count ','` iterations suffice. -/
def fixDecimal (s : List Char) : List Char :=
  fixDecimalAux (s.count ',') s

/-- Spec-side description of the normalization: every comma becomes a
point, character by character. -/
def commaToDot (c : Char) : Char :=
  if c = ',' then '.' else c

/-- The cell emitted for one column of one fetched row: `none` models
`values[i] = NULL`. -/
def processColumn (isNumber : Bool) (indicator : Int) (buf : List Char) : Option (List Char) :=
  if toCInt indicator = SQL_NULL_DATA then none
  else some (if isNumber then fixDecimal buf else buf)

/-! ### `extract_error`

The driver's diagnostic records for the failing handle are an input.
`SQLGetDiagRec` returns `SQL_SUCCESS` for each available record — or
`SQL_SUCCESS_WITH_INFO` when e.g. the message text does not fit the
256-byte buffer, which the model records in the `withInfo` flag — and
`SQL_NO_DATA` past the last record.  The source emits every record whose
retrieval `SQL_SUCCEEDED`, keeps the first native code that arrives while
`*outnative` still holds `ANYERROR`, and continues the do-while loop only
while the return code is exactly `SQL_SUCCESS`. -/

structure DiagRec where
  state : String
  native : Int
  text : String
  withInfo : Bool
deriving DecidableEq, Repr

def extract_error_loop : List DiagRec → Int → List DiagRec × Int
  | [], outnative => ([], outnative)
  | r :: rs, outnative =>
    let out2 := if outnative = ANYERROR then r.native else outnative
    if r.withInfo then ([r], out2)
    else
      let res := extract_error_loop rs out2
      (r :: res.1, res.2)

/-- `extract_error`: the list of diagnostic records emitted as NOTICE
output, and the native code stored through `outnative`. -/
def extract_error (records : List DiagRec) : List DiagRec × Int :=
  extract_error_loop records ANYERROR

/-- Spec-side value: the first native code different from `ANYERROR`
among the records, or `ANYERROR` when there is none. -/
def firstNativeSpec (records : List DiagRec) : Int :=
  match records.find? (fun r => r.native != ANYERROR) with
  | some r => r.native
  | none => ANYERROR

/-! ### The option validator `db2odbc_fdw_validator`

The three catalog object ids are arbitrary distinct constants (their
PostgreSQL values); the validator is called with an arbitrary context oid.
Options are compared by their `defname` only, so an option list is a list
of names. -/

structure db2FdwOption where
  optname : String
  optcontext : Nat
  required : Bool
deriving DecidableEq, Repr

def ForeignServerRelationId : Nat := 1417

def ForeignTableRelationId : Nat := 3118

def UserMappingRelationId : Nat := 1418

def valid_options : List db2FdwOption :=
  [ { optname := "dsn", optcontext := ForeignServerRelationId, required := true },
    { optname := "cached", optcontext := ForeignServerRelationId, required := false },
    { optname := "sql_query", optcontext := ForeignTableRelationId, required := true },
    { optname := "username", optcontext := UserMappingRelationId, required := true },
    { optname := "password", optcontext := UserMappingRelationId, required := true } ]

/-- Phase 1's inner loop: scan `valid_options` for the first entry with
this name (`break` on the first name match); the option is valid when
such an entry exists and its context matches. -/
def optionValid (context : Nat) (name : String) : Bool :=
  match valid_options.find? (fun opt => opt.optname == name) with
  | none => false
  | some opt => opt.optcontext == context

/-- `createValidOptions`: the comma-separated names of the options whose
context matches. -/
def createValidOptions (context : Nat) : String :=
  String.intercalate ", "
    ((valid_options.filter (fun o => o.optcontext == context)).map (fun o => o.optname))

/-- The hint attached to both validator errors:
`buf.len ? buf.data : "<none>"`. -/
def hintFor (context : Nat) : String :=
  let s := createValidOptions context
  "Valid options in this context are: " ++ (if s.length > 0 then s else "<none>")

inductive ValidatorResult where
  | ok
  | invalidOption (name : String) (hint : String)
  | requiredMissing (name : String) (hint : String)
deriving DecidableEq, Repr

/-- `db2odbc_fdw_validator`: phase 1 rejects at the first supplied option
that is unknown or bound to a different context; phase 2 rejects at the
first required option of this context that is absent from the list.  The
`ereport(ERROR, ...)` calls abort, so at most one error is raised. -/
def db2odbc_fdw_validator (options_list : List String) (context : Nat) : ValidatorResult :=
  match options_list.find? (fun o => !optionValid context o) with
  | some bad => .invalidOption bad (hintFor context)
  | none =>
    match (valid_options.filter (fun o => o.required && o.optcontext == context)).find?
        (fun o => !options_list.contains o.optname) with
    | some missing => .requiredMissing missing.optname (hintFor context)
    | none => .ok

/-- Spec-side allow-list (the table of §6 of the specification). -/
def specAllowed (context : Nat) : List String :=
  if context = ForeignServerRelationId then ["dsn", "cached"]
  else if context = ForeignTableRelationId then ["sql_query"]
  else if context = UserMappingRelationId then ["username", "password"]
  else []

/-- Spec-side required-key table (the table of §6 of the specification). -/
def specRequired (context : Nat) : List String :=
  if context = ForeignServerRelationId then ["dsn"]
  else if context = ForeignTableRelationId then ["sql_query"]
  else if context = UserMappingRelationId then ["username", "password"]
  else []

/-! ## Theorems -/

/-! ### C1 / C9 — the retry loop -/

theorem shouldRetry_eq_retryEligible (c : String) (n : Int) :
    shouldRetry c n = retryEligible (some c) n := by
  unfold shouldRetry retryEligible
  by_cases h0 : atol c = 0
  · simp [h0, ANYERROR]
  · by_cases h1 : atol c = -1
    · simp [h0, h1, ANYERROR]
    · simp [h0, h1, ANYERROR]

theorem beginLoopAux_succ (cached : Option String) (ev : Nat → AttemptEvent)
    (fuel idx ec : Nat) :
    beginLoopAux cached ev (fuel + 1) idx ec =
      match ev idx with
      | .connectFail => .unableToConnect ec
      | .exec .ok => .describedOk (ec + 1)
      | .exec (.fail native) =>
        match cached with
        | none => .execFailed (ec + 1)
        | some c =>
          if shouldRetry c native then beginLoopAux cached ev fuel (idx + 1) (ec + 1)
          else .execFailed (ec + 1) := rfl

/-- C1 counterexample.  The claim's third branch says that a cached token
parsing to a nonzero integer permits a retry only when the native code
equals that integer, any mismatch being fatal with no further retries.
The token `"-1"` parses to the nonzero integer `-1`; the first execute
fails with native code `5 ≠ -1`; yet the loop reconnects and retries, and
the scan completes successfully on the second execute attempt. -/
theorem beginScan_negative_token_retries :
    atol "-1" = -1 ∧ atol "-1" ≠ 0 ∧ ((5 : Int) ≠ -1) ∧
      beginScan (some "-1") (fun i => if i = 0 then .exec (.fail 5) else .exec .ok) =
        .describedOk 2 := by
  refine ⟨by decide, by decide, by decide, by decide⟩

/-- C1 (amended): for a first execute failure with native code `n`, the
retry loop of `db2_BeginForeignScan` behaves as follows.  If the cached
option is absent there is exactly one execute attempt and the failure is
immediately fatal (EXEC_FAILED).  If the cached token parses to `0`
(which includes `"0"` and unparsable text) or to the wildcard value `-1`,
a reconnect-and-retry occurs on any native code.  If it parses to any
other integer, a retry occurs only when `n` equals that integer, and a
mismatch is fatal with no further retries.  When a retry occurs, the cap
of `RETRYNUMB = 2` attempts applies: a second execute failure is fatal
regardless of its native code. -/
theorem beginScan_retry_policy (cached : Option String) (ev : Nat → AttemptEvent) (n : Int)
    (h : ev 0 = .exec (.fail n)) :
    beginScan cached ev =
      (if retryEligible cached n then
        match ev 1 with
        | .connectFail => BeginOutcome.unableToConnect 1
        | .exec .ok => BeginOutcome.describedOk 2
        | .exec (.fail _) => BeginOutcome.execFailed 2
      else BeginOutcome.execFailed 1) := by
  have e2 : RETRYNUMB = 1 + 1 := rfl
  unfold beginScan
  rw [e2, beginLoopAux_succ, h]
  dsimp only
  cases cached with
  | none => simp [retryEligible]
  | some c =>
    dsimp only
    rw [show shouldRetry c n = retryEligible (some c) n from shouldRetry_eq_retryEligible c n]
    by_cases hre : retryEligible (some c) n
    · rw [if_pos hre, if_pos hre]
      rw [show (1 : Nat) = 0 + 1 from rfl, beginLoopAux_succ]
      dsimp only
      cases hev : ev (0 + 1) with
      | connectFail => simp
      | exec r =>
        cases r with
        | ok => simp
        | fail m =>
          by_cases hr2 : shouldRetry c m = true
          · simp [hr2, beginLoopAux]
          · simp [hr2]
    · rw [if_neg hre, if_neg hre]

/-- C1 witness: token `"1205"`, first execute fails with native code 1205,
second succeeds — the loop retries once and Begin completes after two
execute attempts. -/
theorem beginScan_retry_policy_witness :
    beginScan (some "1205") (fun i => if i = 0 then .exec (.fail 1205) else .exec .ok) =
      .describedOk 2 :=
  (beginScan_retry_policy (some "1205")
    (fun i => if i = 0 then .exec (.fail 1205) else .exec .ok) 1205 rfl).trans (by decide)

/-- C9: when a retry-eligible execute failure is followed by an
authentication failure of the fresh reconnect, the whole scan aborts at
once with UNABLE_TO_CONNECT: only the one execute attempt before the
reconnect was made, and EXEC_FAILED is never reported for the scan. -/
theorem beginScan_reconnect_failure_aborts (c : String) (n : Int) (ev : Nat → AttemptEvent)
    (h0 : ev 0 = .exec (.fail n)) (h1 : ev 1 = .connectFail)
    (hr : shouldRetry c n = true) :
    beginScan (some c) ev = .unableToConnect 1 ∧
      ∀ k, beginScan (some c) ev ≠ .execFailed k := by
  have e2 : RETRYNUMB = 1 + 1 := rfl
  have hmain : beginScan (some c) ev = .unableToConnect 1 := by
    unfold beginScan
    rw [e2, beginLoopAux_succ, h0]
    dsimp only
    rw [if_pos hr]
    rw [show (1 : Nat) = 0 + 1 from rfl, beginLoopAux_succ]
    rw [show (0 : Nat) + 1 = 1 from rfl, h1]
  exact ⟨hmain, fun k => by rw [hmain]; simp⟩

/-- C9 witness: token `"0"` (retry on any error), first execute fails with
native code 42, the reconnect is rejected — the scan aborts with
UNABLE_TO_CONNECT after a single execute attempt. -/
theorem beginScan_reconnect_failure_aborts_witness :
    beginScan (some "0") (fun i => if i = 0 then .exec (.fail 42) else .connectFail) =
      .unableToConnect 1 :=
  (beginScan_reconnect_failure_aborts "0" 42
    (fun i => if i = 0 then .exec (.fail 42) else .connectFail) rfl rfl (by decide)).1

/-! ### C2 — `removeConnection` -/

/-- C2 (code bug): `removeConnection` declares a `prev` pointer, sets it
to `NULL`, and never advances it inside the loop, so every match resets
the global list head to the matching node's successor.  With the cache
`[e1 (dbc 11), e2 (dbc 21)]` and `removeConnection(21)`, the entry `e1`,
whose handle 11 differs from 21, is dropped from the cache as well (and
leaked): the final cache is empty and `find` no longer returns `e1` for
`e1`'s own key, contradicting the claim's frame condition. -/
theorem removeConnection_drops_preceding_entry :
    removeConnection
        [ { dsn_name := ['a'], userId := 1, env := 10, dbc := 11 },
          { dsn_name := ['b'], userId := 1, env := 20, dbc := 21 } ] 21 = [] ∧
      ((11 : Nat) ≠ 21) ∧
      findConnection
        (removeConnection
          [ { dsn_name := ['a'], userId := 1, env := 10, dbc := 11 },
            { dsn_name := ['b'], userId := 1, env := 20, dbc := 21 } ] 21) ['a'] 1 = none := by
  refine ⟨by decide, by decide, by decide⟩

/-! ### C3 / C10 — `addNewConnection`, the `strncpy` key copy, and `findConnection` -/

theorem cstringOf_append (l1 l2 : List Char) (h : NUL ∉ l1) :
    cstringOf (l1 ++ l2) = l1 ++ cstringOf l2 := by
  induction l1 with
  | nil => simp
  | cons c cs ih =>
    have hc : c ≠ NUL := fun hh => h (hh ▸ List.mem_cons_self c cs)
    have hcs : NUL ∉ cs := fun hm => h (List.mem_cons_of_mem _ hm)
    simp only [cstringOf, List.cons_append, List.takeWhile_cons]
    rw [show (c != NUL) = true from by simpa using hc]
    simpa [cstringOf] using ih hcs

theorem storedDsn_short (dsn : List Char) (junk : Char)
    (hlen : dsn.length ≤ 126) (hnul : NUL ∉ dsn) :
    cstringOf (storedDsnBytes dsn junk) = dsn := by
  unfold storedDsnBytes strncpyBytes
  rw [List.take_of_length_le (by simp [DSN_MAX_LEN]; omega)]
  rw [show DSN_MAX_LEN - 1 - dsn.length = (126 - dsn.length) + 1 from by
    simp only [DSN_MAX_LEN]; omega]
  rw [List.replicate_succ, List.append_assoc]
  rw [cstringOf_append dsn _ hnul]
  simp [cstringOf, NUL]

theorem storedDsn_long (dsn : List Char) (junk : Char)
    (hlen : 127 ≤ dsn.length) (hnul : NUL ∉ dsn) :
    cstringOf (storedDsnBytes dsn junk) = dsn.take 127 ++ cstringOf [junk] := by
  unfold storedDsnBytes strncpyBytes
  rw [show DSN_MAX_LEN - 1 - dsn.length = 0 from by simp only [DSN_MAX_LEN]; omega]
  have hnul127 : NUL ∉ dsn.take 127 := fun hm => hnul (List.take_subset 127 dsn hm)
  simp only [List.replicate_zero, List.append_nil, DSN_MAX_LEN]
  exact cstringOf_append (dsn.take 127) [junk] hnul127

theorem find_after_add (cache : List db2ConnectionCacheEntry) (dsn : List Char)
    (uid env dbc : Nat) (junk : Char) (hlen : dsn.length ≤ 126) (hnul : NUL ∉ dsn) :
    findConnection (addNewConnection cache dsn uid env dbc junk) dsn uid =
      some { dsn_name := dsn, userId := uid, env := env, dbc := dbc } := by
  unfold findConnection addNewConnection
  rw [storedDsn_short dsn junk hlen hnul]
  simp [List.find?]

set_option maxRecDepth 40000 in
/-- C3 counterexample.  The claim promises that for every dsn of length at
most 127 characters, `find` after `insert` returns the inserted entry.
For a dsn of length exactly 127, `strncpy(e->dsn_name, dsn, 127)` writes
127 bytes and no terminator, and byte 127 of the `malloc`'d buffer is
arbitrary junk; when that junk byte is nonzero (here `'X'`), the stored
key read back by `strcmp` differs from the dsn and `find` returns
nothing — even into an empty cache. -/
theorem find_after_insert_fails_at_127 :
    (List.replicate 127 'a').length ≤ 127 ∧
      findConnection (addNewConnection [] (List.replicate 127 'a') 1 2 3 'X')
        (List.replicate 127 'a') 1 = none :=
  ⟨by decide, by decide⟩

/-- C3 (amended): for every dsn of length at most 126 (so that the
`strncpy` into the 128-byte buffer leaves a terminating NUL), after
`addNewConnection(dsn, id, env, conn)`, `findConnection(dsn, id)` returns
an entry whose `env` and `dbc` handles equal the inserted ones; and since
the insert prepends while the lookup takes the first match, this holds
for an arbitrary prior cache — entries already sharing the same key are
shadowed by the most recently inserted one. -/
theorem find_after_insert_short_dsn (cache : List db2ConnectionCacheEntry) (dsn : List Char)
    (uid env dbc : Nat) (junk : Char) (hlen : dsn.length ≤ 126) (hnul : NUL ∉ dsn) :
    findConnection (addNewConnection cache dsn uid env dbc junk) dsn uid =
      some { dsn_name := dsn, userId := uid, env := env, dbc := dbc } :=
  find_after_add cache dsn uid env dbc junk hlen hnul

/-- C3 witness: inserting `(['d'], user 7, env 200, dbc 201)` on top of a
cache that already holds an older entry for the same key: `find` returns
the new handles, not the old ones. -/
theorem find_after_insert_short_dsn_witness :
    findConnection
        (addNewConnection [ { dsn_name := ['d'], userId := 7, env := 100, dbc := 101 } ]
          ['d'] 7 200 201 'X') ['d'] 7 =
      some { dsn_name := ['d'], userId := 7, env := 200, dbc := 201 } :=
  find_after_insert_short_dsn
    [ { dsn_name := ['d'], userId := 7, env := 100, dbc := 101 } ]
    ['d'] 7 200 201 'X' (by decide) (by decide)

set_option maxRecDepth 40000 in
/-- C10 counterexample.  The claim says the stored key equals the dsn
exactly for every dsn of length at most 127.  At length exactly 127 the
copy is unterminated: with junk byte `'X'` in the last buffer position
the read-back key is the dsn followed by `'X'`, not the dsn. -/
theorem storedDsn_unterminated_at_127 :
    (List.replicate 127 'b').length ≤ 127 ∧
      cstringOf (storedDsnBytes (List.replicate 127 'b') 'X') ≠ List.replicate 127 'b' :=
  ⟨by decide, by decide⟩

/-- C10 (amended): the insertion stores at most the first 127 characters
of the dsn.  For every dsn of length at most 126 the stored key equals
the dsn exactly; for any dsn of 127 characters or more the buffer holds
the first 127 characters without a terminator, so the read-back key is
those 127 characters possibly extended by the junk byte; consequently
`find` after `insert` is only guaranteed to locate the entry when the dsn
is at most 126 characters long. -/
theorem storedDsn_truncation_policy (dsn : List Char) (junk : Char) (hnul : NUL ∉ dsn) :
    (dsn.length ≤ 126 → cstringOf (storedDsnBytes dsn junk) = dsn) ∧
      (127 ≤ dsn.length →
        cstringOf (storedDsnBytes dsn junk) = dsn.take 127 ++ cstringOf [junk]) ∧
      (∀ cache uid env dbc, dsn.length ≤ 126 →
        findConnection (addNewConnection cache dsn uid env dbc junk) dsn uid =
          some { dsn_name := dsn, userId := uid, env := env, dbc := dbc }) :=
  ⟨fun hlen => storedDsn_short dsn junk hlen hnul,
   fun hlen => storedDsn_long dsn junk hlen hnul,
   fun cache uid env dbc hlen => find_after_add cache dsn uid env dbc junk hlen hnul⟩

/-- C10 witness: a two-character dsn is stored exactly and remains
findable after insertion. -/
theorem storedDsn_truncation_policy_witness :
    cstringOf (storedDsnBytes ['a', 'b'] 'X') = ['a', 'b'] :=
  (storedDsn_truncation_policy ['a', 'b'] 'X' (by decide)).1 (by decide)

/-! ### C4 / C7 — per-column cell handling in Iterate -/

theorem map_commaToDot_no_comma (s : List Char) (h : ',' ∉ s) :
    s.map commaToDot = s := by
  induction s with
  | nil => rfl
  | cons c cs ih =>
    have hc : c ≠ ',' := fun hh => h (hh ▸ List.mem_cons_self c cs)
    have hcs : ',' ∉ cs := fun hm => h (List.mem_cons_of_mem _ hm)
    simp [commaToDot, hc, ih hcs]

theorem replaceFirstComma_map (s : List Char) :
    (replaceFirstComma s).map commaToDot = s.map commaToDot := by
  induction s with
  | nil => rfl
  | cons c cs ih =>
    by_cases hc : c = ','
    · subst hc
      simp [replaceFirstComma, commaToDot]
    · simp [replaceFirstComma, hc, ih]

theorem replaceFirstComma_count (s : List Char) (h : ',' ∈ s) :
    (replaceFirstComma s).count ',' + 1 = s.count ',' := by
  induction s with
  | nil => cases h
  | cons c cs ih =>
    by_cases hc : c = ','
    · subst hc
      simp [replaceFirstComma, List.count_cons]
    · have hcs : ',' ∈ cs := by
        rcases List.mem_cons.mp h with h1 | h1
        · exact absurd h1.symm hc
        · exact h1
      simp only [replaceFirstComma, if_neg hc, List.count_cons]
      rw [← ih hcs]
      have hb : (c == ',') = false := by simpa using fun hh => hc hh
      simp [hb]

theorem fixDecimalAux_eq_map (fuel : Nat) :
    ∀ s : List Char, s.count ',' ≤ fuel → fixDecimalAux fuel s = s.map commaToDot := by
  induction fuel with
  | zero =>
    intro s hs
    have h0 : s.count ',' = 0 := Nat.le_zero.mp hs
    have hmem : ',' ∉ s := by
      intro hm
      have := List.count_pos_iff.mpr hm
      omega
    simpa [fixDecimalAux] using (map_commaToDot_no_comma s hmem).symm
  | succ n ih =>
    intro s hs
    by_cases hc : ',' ∈ s
    · have hcont : s.contains ',' = true := by
        simp [List.contains, List.elem_iff, hc]
      unfold fixDecimalAux
      rw [if_pos hcont]
      have hcnt : (strrchrReplace s).count ',' + 1 = s.count ',' := by
        unfold strrchrReplace
        rw [List.count_reverse]
        rw [replaceFirstComma_count s.reverse (List.mem_reverse.mpr hc)]
        exact List.count_reverse ',' s
      have hle : (strrchrReplace s).count ',' ≤ n := by omega
      rw [ih _ hle]
      unfold strrchrReplace
      rw [List.map_reverse, replaceFirstComma_map, ← List.map_reverse, List.reverse_reverse]
    · have hcont : ¬ (s.contains ',' = true) := by
        simp [List.elem_iff, hc]
      unfold fixDecimalAux
      rw [if_neg hcont]
      exact (map_commaToDot_no_comma s hc).symm

theorem fixDecimal_eq_map (s : List Char) : fixDecimal s = s.map commaToDot :=
  fixDecimalAux_eq_map (s.count ',') s le_rfl

/-- C4: in `Iterate`, a non-null fetched cell of a column classified
numeric-family has every comma replaced by a point (the `strrchr` loop
replaces all occurrences, scanning from the end), and a non-null cell of
a column not classified numeric-family is passed through unchanged. -/
theorem iterate_numeric_comma_normalization (buf : List Char) (indicator : Int)
    (hind : toCInt indicator ≠ SQL_NULL_DATA) :
    processColumn true indicator buf = some (buf.map commaToDot) ∧
      processColumn false indicator buf = some buf := by
  unfold processColumn
  rw [if_neg hind, if_neg hind]
  simp [fixDecimal_eq_map]

/-- C4 witness: the cell `"1,2,3"` of a numeric column with indicator 5
becomes `"1.2.3"`; for a non-numeric column it stays `"1,2,3"`. -/
theorem iterate_numeric_comma_normalization_witness :
    processColumn true 5 ['1', ',', '2', ',', '3'] = some ['1', '.', '2', '.', '3'] ∧
      processColumn false 5 ['1', ',', '2', ',', '3'] = some ['1', ',', '2', ',', '3'] := by
  have h := iterate_numeric_comma_normalization ['1', ',', '2', ',', '3'] 5 (by decide)
  exact ⟨h.1.trans (by decide), h.2⟩

/-- C7 counterexample.  The source compares `(int)indicator` with
`SQL_NULL_DATA`, truncating the 64-bit indicator to 32 bits.  The
indicator 4294967295 is not the null marker (it differs from -1), yet its
low 32 bits are all ones, so the cast makes the comparison succeed and
the emitted cell is null instead of the fetched text. -/
theorem processColumn_large_indicator_null :
    ((4294967295 : Int) ≠ SQL_NULL_DATA) ∧
      processColumn false 4294967295 ['x'] = none :=
  ⟨by decide, by decide⟩

theorem toCInt_eq_null_iff (n : Int) :
    toCInt n = SQL_NULL_DATA ↔ n % 4294967296 = 4294967295 := by
  unfold toCInt SQL_NULL_DATA
  omega

/-- C7 (amended): the emitted cell is null exactly when the indicator is
congruent to `SQL_NULL_DATA` modulo 2^32 — the code casts the 64-bit
indicator to a 32-bit `int` before comparing — so in particular the true
null marker -1 yields a null cell; any indicator whose low 32 bits are
not all ones yields the fetched text (normalized for numeric-family
columns), never an empty string. -/
theorem processColumn_null_iff_mod (isNumber : Bool) (indicator : Int) (buf : List Char) :
    (processColumn isNumber indicator buf = none ↔
        indicator % 4294967296 = 4294967295) ∧
      (indicator % 4294967296 ≠ 4294967295 →
        processColumn isNumber indicator buf =
          some (if isNumber then buf.map commaToDot else buf)) := by
  by_cases hc : toCInt indicator = SQL_NULL_DATA
  · have hm : indicator % 4294967296 = 4294967295 := (toCInt_eq_null_iff indicator).mp hc
    exact ⟨by simp [processColumn, hc, hm], fun hne => absurd hm hne⟩
  · have hm : ¬ indicator % 4294967296 = 4294967295 :=
      fun hh => hc ((toCInt_eq_null_iff indicator).mpr hh)
    constructor
    · simp [processColumn, hc, hm]
    · intro _
      cases isNumber with
      | false => simp [processColumn, hc]
      | true => simp [processColumn, hc, fixDecimal_eq_map]

/-- C7 witness: the genuine null marker -1 produces a null cell. -/
theorem processColumn_null_iff_mod_witness :
    processColumn true (-1) ['7'] = none :=
  (processColumn_null_iff_mod true (-1) ['7']).1.mpr (by decide)

/-! ### C8 — `extract_error` -/

theorem extract_error_loop_all_success (records : List DiagRec) :
    ∀ out : Int, (∀ r ∈ records, r.withInfo = false) →
      extract_error_loop records out =
        (records, if out = ANYERROR then firstNativeSpec records else out) := by
  induction records with
  | nil =>
    intro out hall
    by_cases hout : out = ANYERROR
    · simp [extract_error_loop, firstNativeSpec, hout]
    · simp [extract_error_loop, firstNativeSpec, hout]
  | cons r rs ih =>
    intro out hall
    have hr : r.withInfo = false := hall r (List.mem_cons_self r rs)
    have hrs : ∀ x ∈ rs, x.withInfo = false := fun x hx => hall x (List.mem_cons_of_mem _ hx)
    simp only [extract_error_loop, hr, Bool.false_eq_true, if_false]
    rw [ih _ hrs]
    by_cases hout : out = ANYERROR
    · by_cases hnat : r.native = ANYERROR
      · simp [hout, hnat, firstNativeSpec, List.find?]
      · have hb : (r.native != ANYERROR) = true := by simpa using hnat
        simp [hout, hnat, firstNativeSpec, List.find?, hb]
    · simp [hout, firstNativeSpec]

/-- C8 counterexample.  The claim says the native code of the *first*
diagnostic record is returned.  The guard
`if (outnative != NULL && *outnative == ANYERROR)` keeps overwriting the
output as long as it still holds the sentinel -1, so when the first
record's native code is itself -1 and the second record reports 7, the
function returns 7 — not the first record's code. -/
theorem extract_error_skips_anyerror_first_record :
    (extract_error
        [ { state := "S1", native := -1, text := "m1", withInfo := false },
          { state := "S2", native := 7, text := "m2", withInfo := false } ]).2 = 7 ∧
      ((7 : Int) ≠ -1) :=
  ⟨by decide, by decide⟩

/-- C8 (amended): when every diagnostic record is retrieved with plain
`SQL_SUCCESS` (the do-while continues only on that exact code, so a
record whose retrieval reports `SQL_SUCCESS_WITH_INFO` — e.g. a truncated
message — would end the enumeration after being emitted), `extract_error`
emits all available records in order as informational output and returns
the first reported native code that differs from the sentinel -1 — hence
the first record's code whenever that code is not -1 — and returns the
wildcard sentinel -1 when no diagnostic record is available. -/
theorem extract_error_enumeration_and_native (records : List DiagRec)
    (hall : ∀ r ∈ records, r.withInfo = false) :
    extract_error records = (records, firstNativeSpec records) ∧
      (∀ r0 rs, records = r0 :: rs → r0.native ≠ ANYERROR →
        (extract_error records).2 = r0.native) ∧
      (records = [] → extract_error records = ([], ANYERROR)) := by
  have hmain : extract_error records = (records, firstNativeSpec records) := by
    unfold extract_error
    rw [extract_error_loop_all_success records ANYERROR hall]
    simp
  refine ⟨hmain, ?_, ?_⟩
  · intro r0 rs hrec hnat
    subst hrec
    rw [hmain]
    have hb : (r0.native != ANYERROR) = true := by simpa using hnat
    simp [firstNativeSpec, List.find?, hb]
  · intro h
    subst h
    rw [hmain]
    simp [firstNativeSpec, List.find?]

/-- C8 witness: a single record with native code 30081 is emitted and its
code returned. -/
theorem extract_error_enumeration_and_native_witness :
    extract_error [ { state := "08001", native := 30081, text := "m", withInfo := false } ] =
      ([ { state := "08001", native := 30081, text := "m", withInfo := false } ], 30081) := by
  have h := extract_error_enumeration_and_native
    [ { state := "08001", native := 30081, text := "m", withInfo := false } ] (by decide)
  exact h.1.trans (by decide)

/-! ### C6 — `getConnection` authentication failure -/

/-- C6: when no cache entry exists for the key and the driver rejects the
fresh `SQLConnect`, `getConnection` fails with
ERRCODE_FDW_UNABLE_TO_ESTABLISH_CONNECTION, its message contains the
data-source-name, and the cache is left exactly as it was — no entry is
inserted for the failed attempt (the `ereport(ERROR, ...)` aborts before
`addNewConnection` is reached). -/
theorem getConnection_auth_failure (cache : List db2ConnectionCacheEntry) (dsn : List Char)
    (userId : Nat) (cached : Option String) (drv : DriverConnect) (junk : Char)
    (hmiss : findConnection cache dsn userId = none) (hfail : drv.connectOk = false) :
    getConnection cache dsn userId cached drv junk =
      (.error { code := .unableToEstablishConnection
                msg := "cannot connect to odbc dsn " ++ String.mk dsn
                hint := "Check connection data or make sure that target database is online" },
        cache) ∧
      (∀ err : PgError, (getConnection cache dsn userId cached drv junk).1 = .error err →
        ∃ pre post, err.msg = pre ++ String.mk dsn ++ post) := by
  have hmain : getConnection cache dsn userId cached drv junk =
      (.error { code := .unableToEstablishConnection
                msg := "cannot connect to odbc dsn " ++ String.mk dsn
                hint := "Check connection data or make sure that target database is online" },
        cache) := by
    unfold getConnection
    rw [hmiss]
    simp [hfail]
  refine ⟨hmain, fun err herr => ?_⟩
  rw [hmain] at herr
  simp at herr
  exact ⟨"cannot connect to odbc dsn ", "", by rw [← herr]; simp⟩

/-- C6 witness: empty cache, dsn `"db"`, driver rejects the connect — the
scan aborts with the connection error naming the dsn, cache unchanged. -/
theorem getConnection_auth_failure_witness :
    getConnection [] ['d', 'b'] 5 none { env := 1, dbc := 2, connectOk := false } 'Z' =
      (.error { code := .unableToEstablishConnection
                msg := "cannot connect to odbc dsn db"
                hint := "Check connection data or make sure that target database is online" },
        []) :=
  ((getConnection_auth_failure [] ['d', 'b'] 5 none
      { env := 1, dbc := 2, connectOk := false } 'Z' rfl rfl).1).trans (by rfl)

/-! ### C5 — the option validator -/

theorem mem_specAllowed_iff (context : Nat) (o : String) :
    o ∈ specAllowed context ↔
      (context = ForeignServerRelationId ∧ (o = "dsn" ∨ o = "cached")) ∨
      (context = ForeignTableRelationId ∧ o = "sql_query") ∨
      (context = UserMappingRelationId ∧ (o = "username" ∨ o = "password")) := by
  unfold specAllowed
  split_ifs with h1 h2 h3 <;>
    simp_all [ForeignServerRelationId, ForeignTableRelationId, UserMappingRelationId]

theorem optionValid_eq_spec (context : Nat) (o : String) :
    optionValid context o = true ↔
      (context = ForeignServerRelationId ∧ (o = "dsn" ∨ o = "cached")) ∨
      (context = ForeignTableRelationId ∧ o = "sql_query") ∨
      (context = UserMappingRelationId ∧ (o = "username" ∨ o = "password")) := by
  unfold optionValid valid_options
  by_cases e1 : o = "dsn"
  · subst e1
    simp [List.find?, beq_iff_eq, ForeignServerRelationId,
      ForeignTableRelationId, UserMappingRelationId]
    try omega
  · by_cases e2 : o = "cached"
    · subst e2
      simp [List.find?, beq_iff_eq, ForeignServerRelationId,
        ForeignTableRelationId, UserMappingRelationId]
      try omega
    · by_cases e3 : o = "sql_query"
      · subst e3
        simp [List.find?, beq_iff_eq, ForeignServerRelationId,
          ForeignTableRelationId, UserMappingRelationId]
        try omega
      · by_cases e4 : o = "username"
        · subst e4
          simp [List.find?, beq_iff_eq, ForeignServerRelationId,
            ForeignTableRelationId, UserMappingRelationId]
          try omega
        · by_cases e5 : o = "password"
          · subst e5
            simp [List.find?, beq_iff_eq, ForeignServerRelationId,
              ForeignTableRelationId, UserMappingRelationId]
            try omega
          · have f1 : ("dsn" == o) = false := beq_eq_false_iff_ne.mpr fun hh => e1 hh.symm
            have f2 : ("cached" == o) = false := beq_eq_false_iff_ne.mpr fun hh => e2 hh.symm
            have f3 : ("sql_query" == o) = false :=
              beq_eq_false_iff_ne.mpr fun hh => e3 hh.symm
            have f4 : ("username" == o) = false :=
              beq_eq_false_iff_ne.mpr fun hh => e4 hh.symm
            have f5 : ("password" == o) = false :=
              beq_eq_false_iff_ne.mpr fun hh => e5 hh.symm
            simp [List.find?, f1, f2, f3, f4, f5, e1, e2, e3, e4, e5]

theorem optionValid_iff (context : Nat) (o : String) :
    optionValid context o = true ↔ o ∈ specAllowed context :=
  (optionValid_eq_spec context o).trans (mem_specAllowed_iff context o).symm

theorem requiredFilter_eq (context : Nat) :
    (valid_options.filter (fun o => o.required && o.optcontext == context)).map
      (fun o => o.optname) = specRequired context := by
  by_cases h1 : context = ForeignServerRelationId
  · subst h1; decide
  · by_cases h2 : context = ForeignTableRelationId
    · subst h2; decide
    · by_cases h3 : context = UserMappingRelationId
      · subst h3; decide
      · have b1 : (ForeignServerRelationId == context) = false := by
          simp only [ForeignServerRelationId] at h1 ⊢
          simp only [beq_eq_false_iff_ne, ne_eq]
          omega
        have b2 : (ForeignTableRelationId == context) = false := by
          simp only [ForeignTableRelationId] at h2 ⊢
          simp only [beq_eq_false_iff_ne, ne_eq]
          omega
        have b3 : (UserMappingRelationId == context) = false := by
          simp only [UserMappingRelationId] at h3 ⊢
          simp only [beq_eq_false_iff_ne, ne_eq]
          omega
        simp [valid_options, specRequired, h1, h2, h3, b1, b2, b3]

theorem allowedFilter_eq (context : Nat) :
    (valid_options.filter (fun o => o.optcontext == context)).map
      (fun o => o.optname) = specAllowed context := by
  by_cases h1 : context = ForeignServerRelationId
  · subst h1; decide
  · by_cases h2 : context = ForeignTableRelationId
    · subst h2; decide
    · by_cases h3 : context = UserMappingRelationId
      · subst h3; decide
      · have b1 : (ForeignServerRelationId == context) = false := by
          simp only [ForeignServerRelationId] at h1 ⊢
          simp only [beq_eq_false_iff_ne, ne_eq]
          omega
        have b2 : (ForeignTableRelationId == context) = false := by
          simp only [ForeignTableRelationId] at h2 ⊢
          simp only [beq_eq_false_iff_ne, ne_eq]
          omega
        have b3 : (UserMappingRelationId == context) = false := by
          simp only [UserMappingRelationId] at h3 ⊢
          simp only [beq_eq_false_iff_ne, ne_eq]
          omega
        simp [valid_options, specAllowed, h1, h2, h3, b1, b2, b3]

theorem hintFor_eq (context : Nat) :
    hintFor context = "Valid options in this context are: " ++
      (if specAllowed context = [] then "<none>"
       else String.intercalate ", " (specAllowed context)) := by
  have hcv : createValidOptions context = String.intercalate ", " (specAllowed context) := by
    unfold createValidOptions
    rw [allowedFilter_eq]
  by_cases h1 : context = ForeignServerRelationId
  · subst h1; decide
  · by_cases h2 : context = ForeignTableRelationId
    · subst h2; decide
    · by_cases h3 : context = UserMappingRelationId
      · subst h3; decide
      · have hemp : specAllowed context = [] := by
          simp [specAllowed, h1, h2, h3]
        unfold hintFor
        rw [hcv, hemp]
        decide

theorem validator_ok_iff_aux (opts : List String) (context : Nat) :
    db2odbc_fdw_validator opts context = .ok ↔
      opts.find? (fun o => !optionValid context o) = none ∧
      ((valid_options.filter (fun o => o.required && o.optcontext == context)).find?
        (fun o => !opts.contains o.optname) = none) := by
  unfold db2odbc_fdw_validator
  cases h1 : opts.find? (fun o => !optionValid context o) with
  | some bad => simp [h1]
  | none =>
    cases h2 : (valid_options.filter (fun o => o.required && o.optcontext == context)).find?
        (fun o => !opts.contains o.optname) with
    | some missing => simp [h2]
    | none => simp [h2]

theorem phase1_none_iff (opts : List String) (context : Nat) :
    opts.find? (fun o => !optionValid context o) = none ↔
      ∀ o ∈ opts, o ∈ specAllowed context := by
  rw [List.find?_eq_none]
  constructor
  · intro h o ho
    have h1 := h o ho
    simp at h1
    exact (optionValid_iff context o).mp h1
  · intro h o ho
    simp [(optionValid_iff context o).mpr (h o ho)]

theorem phase2_none_iff (opts : List String) (context : Nat) :
    ((valid_options.filter (fun o => o.required && o.optcontext == context)).find?
        (fun o => !opts.contains o.optname) = none) ↔
      ∀ r ∈ specRequired context, r ∈ opts := by
  rw [List.find?_eq_none]
  constructor
  · intro h r hr
    rw [← requiredFilter_eq context] at hr
    obtain ⟨o, ho, rfl⟩ := List.mem_map.mp hr
    have h1 := h o ho
    simp at h1
    exact h1
  · intro h o ho
    have hm : o.optname ∈ specRequired context := by
      rw [← requiredFilter_eq context]
      exact List.mem_map.mpr ⟨o, ho, rfl⟩
    simp [h _ hm]

/-- C5: the validator accepts exactly when every supplied option name is
in the allow-list for the context and every option name required for the
context is present; each of the two rejection errors carries the hint
listing the valid options for the context (`<none>` when the context has
no valid options). -/
theorem validator_accepts_iff (opts : List String) (context : Nat) :
    (db2odbc_fdw_validator opts context = .ok ↔
      ((∀ o ∈ opts, o ∈ specAllowed context) ∧ ∀ r ∈ specRequired context, r ∈ opts)) ∧
      (∀ name hint, db2odbc_fdw_validator opts context = .invalidOption name hint →
        hint = "Valid options in this context are: " ++
          (if specAllowed context = [] then "<none>"
           else String.intercalate ", " (specAllowed context))) ∧
      (∀ name hint, db2odbc_fdw_validator opts context = .requiredMissing name hint →
        hint = "Valid options in this context are: " ++
          (if specAllowed context = [] then "<none>"
           else String.intercalate ", " (specAllowed context))) := by
  refine ⟨?_, ?_, ?_⟩
  · rw [validator_ok_iff_aux]
    exact and_congr (phase1_none_iff opts context) (phase2_none_iff opts context)
  · intro name hint h
    rw [← hintFor_eq context]
    unfold db2odbc_fdw_validator at h
    cases h1 : opts.find? (fun o => !optionValid context o) with
    | some bad =>
      rw [h1] at h
      simp at h
      exact h.2.symm
    | none =>
      rw [h1] at h
      cases h2 : (valid_options.filter (fun o => o.required && o.optcontext == context)).find?
          (fun o => !opts.contains o.optname) with
      | some missing =>
        rw [h2] at h
        simp at h
      | none =>
        rw [h2] at h
        simp at h
  · intro name hint h
    rw [← hintFor_eq context]
    unfold db2odbc_fdw_validator at h
    cases h1 : opts.find? (fun o => !optionValid context o) with
    | some bad =>
      rw [h1] at h
      simp at h
    | none =>
      rw [h1] at h
      cases h2 : (valid_options.filter (fun o => o.required && o.optcontext == context)).find?
          (fun o => !opts.contains o.optname) with
      | some missing =>
        rw [h2] at h
        simp at h
        exact h.2.symm
      | none =>
        rw [h2] at h
        simp at h

/-- C5 witness: `["dsn"]` is accepted for the server context, while
`["cached"]` alone is rejected (the required `dsn` is missing). -/
theorem validator_accepts_iff_witness :
    db2odbc_fdw_validator ["dsn"] ForeignServerRelationId = .ok ∧
      db2odbc_fdw_validator ["cached"] ForeignServerRelationId ≠ .ok :=
  ⟨(validator_accepts_iff ["dsn"] ForeignServerRelationId).1.mpr (by decide),
   fun hh => by
    have h2 := (validator_accepts_iff ["cached"] ForeignServerRelationId).1.mp hh
    revert h2
    decide⟩
